import Mathlib

/-!
Shallow embedding of the token-sale lock script
(`contracts/token-sale/src/main.rs`) and verification of its specification.

Modelling conventions:
* Byte strings are `List Nat` (each element a byte value).
* Machine integers are `Nat` with explicit `% 2 ^ 64` / `% 2 ^ 128` at the
  arithmetic operations where the Rust `u64` / `u128` operations can wrap
  (release-mode two's-complement wrapping semantics).
* A cell is a record of its capacity, the serialized bytes of its lock
  script, its optional type script and its data payload.  The molecule
  serialization of an optional script is the empty byte string for `None`
  and the script's own bytes for `Some`, which is what the contract's
  byte-level comparisons observe.
* The host syscall layer is modelled by a transaction snapshot record: the
  executing script's argument bytes, the lock hash of every cell in the full
  input set, the cells of the own-lock-script input group (`Source::GroupInput`)
  and all output cells (`Source::Output`).  `load_cell(i, source)` succeeding
  corresponds to index `i` being in range for the corresponding list, and
  failing with `SysError::IndexOutOfBound` to it being out of range.
* Fallible functions return `Except Error`; the `?` operator is the explicit
  error propagation in the `match` chains below.
-/

deriving instance DecidableEq for Except

namespace TokenSale

/-- A cell of the candidate transaction: capacity in shannons (a `u64` value),
the serialized bytes of its lock script, the serialized bytes of its optional
type script, and its data payload bytes. -/
structure Cell where
  capacity : Nat
  lock : List Nat
  typ : Option (List Nat)
  data : List Nat
deriving DecidableEq, Repr

/-- Serialized bytes of a cell's optional type-script field: molecule encodes
`None` as the empty byte string and `Some s` as the bytes of `s`.  This is what
`cell.type_().as_bytes()` yields. -/
def Cell.typeBytes (c : Cell) : List Nat := c.typ.getD []

/-- Snapshot of one candidate transaction as seen through the host accessors
used by the script. -/
structure Tx where
  args : List Nat
  inputLockHashes : List (List Nat)
  groupInputs : List Cell
  outputs : List Cell
deriving DecidableEq, Repr

/-- Local error values of the contract (`enum Error`). -/
inductive Error where
  | IndexOutOfBound
  | ItemMissing
  | LengthNotEnough
  | Encoding
  | ArgsLen
  | AmountCkbytes
  | AmountSudt
  | ExchangeRate
  | InvalidCost
  | InvalidStructure
deriving DecidableEq, Repr

/-- The `#[repr(i8)]` discriminant of each local error value: the low values
1–4 are reserved for the host fault codes, the custom errors start at 100. -/
def Error.code : Error → Int
  | .IndexOutOfBound => 1
  | .ItemMissing => 2
  | .LengthNotEnough => 3
  | .Encoding => 4
  | .ArgsLen => 100
  | .AmountCkbytes => 101
  | .AmountSudt => 102
  | .ExchangeRate => 103
  | .InvalidCost => 104
  | .InvalidStructure => 105

/-- Host-collaborator fault codes (`ckb_std::error::SysError`). -/
inductive SysError where
  | IndexOutOfBound
  | ItemMissing
  | LengthNotEnough (len : Nat)
  | Encoding
  | Unknown (code : Int)
deriving DecidableEq, Repr

/-- Embedding of `impl From<SysError> for Error`: the four recognized host faults map to
their local counterparts; an `Unknown` fault code panics, which the embedding
models as `none` (no local error value is ever produced for it). -/
def error_from_sys : SysError → Option Error
  | .IndexOutOfBound => some .IndexOutOfBound
  | .ItemMissing => some .ItemMissing
  | .LengthNotEnough _ => some .LengthNotEnough
  | .Encoding => some .Encoding
  | .Unknown _ => none

/-- The constant `ARGS_LEN = LOCK_HASH_LEN + COST_AMOUNT_LEN = 32 + 8`. -/
def ARGS_LEN : Nat := 32 + 8

/-- Little-endian base-256 value of a byte list; on an `n`-byte list this is
`uN::from_le_bytes`. -/
def le_bytes_to_nat : List Nat → Nat
  | [] => 0
  | b :: rest => b + 256 * le_bytes_to_nat rest

/-- The `k` little-endian bytes of `n` (used to build concrete cell data). -/
def nat_to_le_bytes : Nat → Nat → List Nat
  | 0, _ => []
  | k + 1, n => n % 256 :: nat_to_le_bytes k (n / 256)

/-- Embedding of `check_owner_mode`: true iff some cell of the full input set has a lock
hash equal to the first 32 bytes of the script args
(`args[0..LOCK_HASH_LEN] == lock_hash[..]`). -/
def check_owner_mode (tx : Tx) : Bool :=
  tx.inputLockHashes.any (fun lock_hash => tx.args.take 32 == lock_hash)

/-- Embedding of `determine_token_cost`: decode args bytes 32..40 as a little-endian `u64`
and reject with `InvalidCost` when the value is below 1. -/
def determine_token_cost (args : List Nat) : Except Error Nat :=
  if le_bytes_to_nat ((args.drop 32).take 8) < 1 then .error .InvalidCost
  else .ok (le_bytes_to_nat ((args.drop 32).take 8))

/-- The byte-exact (lock, type) comparison used by the structural validator and
the aggregator: `cell_lock_bytes == lock_script_bytes && cell_type_bytes ==
type_script_bytes`. -/
def script_match (lock_script_bytes type_script_bytes : List Nat) (c : Cell) : Bool :=
  c.lock == lock_script_bytes && c.typeBytes == type_script_bytes

/-- The scanning loop of `determine_token_sale_cell_amounts`, with the two
running totals as accumulators.  Each matching cell must carry exactly 16
bytes of data (else `Encoding`); its decoded token amount and its capacity are
added to the totals with the wrapping `u128` / `u64` additions of the source. -/
def determine_amounts_loop (lock_script_bytes type_script_bytes : List Nat)
    (total_capacity total_tokens : Nat) : List Cell → Except Error (Nat × Nat)
  | [] => .ok (total_capacity, total_tokens)
  | c :: rest =>
    if script_match lock_script_bytes type_script_bytes c then
      if c.data.length = 16 then
        determine_amounts_loop lock_script_bytes type_script_bytes
          ((total_capacity + c.capacity) % 2 ^ 64)
          ((total_tokens + le_bytes_to_nat c.data) % 2 ^ 128) rest
      else .error .Encoding
    else determine_amounts_loop lock_script_bytes type_script_bytes
      total_capacity total_tokens rest

/-- Embedding of `determine_token_sale_cell_amounts`: total capacity and token amount over
all cells of one source matching the given (lock, type) byte pair. -/
def determine_token_sale_cell_amounts (lock_script_bytes type_script_bytes : List Nat)
    (cells : List Cell) : Except Error (Nat × Nat) :=
  determine_amounts_loop lock_script_bytes type_script_bytes 0 0 cells

/-- Embedding of `validate_amounts`: the output capacity must strictly exceed the input
capacity, the output tokens must be strictly below the input tokens, and the
capacity difference must equal the token difference times the cost, the
product being the wrapping `u128` multiplication of the source. -/
def validate_amounts (token_cost input_capacity_amount output_capacity_amount : Nat)
    (input_token_amount output_token_amount : Nat) : Except Error Unit :=
  if output_capacity_amount ≤ input_capacity_amount then .error .AmountCkbytes
  else if input_token_amount ≤ output_token_amount then .error .AmountSudt
  else if output_capacity_amount - input_capacity_amount ≠
      ((input_token_amount - output_token_amount) * token_cost) % 2 ^ 128 then
    .error .ExchangeRate
  else .ok ()

/-- Embedding of `validate_token_sale_inputs`: index 1 of the own-lock-script input group
must not exist (else `InvalidStructure`); index 0 is loaded with `?`, so an
empty group propagates the host's `IndexOutOfBound`; the cell must carry a
type script (else `InvalidStructure`).  Returns the (lock, type) byte pair. -/
def validate_token_sale_inputs (group_inputs : List Cell) :
    Except Error (List Nat × List Nat) :=
  if 2 ≤ group_inputs.length then .error .InvalidStructure
  else
    match group_inputs.head? with
    | none => .error .IndexOutOfBound
    | some token_sale_cell =>
      match token_sale_cell.typ with
      | none => .error .InvalidStructure
      | some type_script => .ok (token_sale_cell.lock, type_script)

/-- Embedding of `validate_token_sale_outputs`: scan all output cells and count those whose
(lock, type) bytes equal the sale cell's; the count must be exactly 1. -/
def validate_token_sale_outputs (lock_script_bytes type_script_bytes : List Nat)
    (outputs : List Cell) : Except Error Unit :=
  if outputs.countP (script_match lock_script_bytes type_script_bytes) ≠ 1 then
    .error .InvalidStructure
  else .ok ()

/-- Embedding of `main`: argument length check, owner-mode short circuit, structural
validation of inputs and outputs, cost decoding, the two aggregation passes,
and the amount validation, with `?`-style error propagation throughout. -/
def main (tx : Tx) : Except Error Unit :=
  if tx.args.length < ARGS_LEN then .error .ArgsLen
  else if check_owner_mode tx then .ok ()
  else
    match validate_token_sale_inputs tx.groupInputs with
    | .error e => .error e
    | .ok (lock_script_bytes, type_script_bytes) =>
      match validate_token_sale_outputs lock_script_bytes type_script_bytes tx.outputs with
      | .error e => .error e
      | .ok _ =>
        match determine_token_cost tx.args with
        | .error e => .error e
        | .ok token_cost =>
          match determine_token_sale_cell_amounts lock_script_bytes type_script_bytes
              tx.groupInputs with
          | .error e => .error e
          | .ok (input_capacity_amount, input_token_amount) =>
            match determine_token_sale_cell_amounts lock_script_bytes type_script_bytes
                tx.outputs with
            | .error e => .error e
            | .ok (output_capacity_amount, output_token_amount) =>
              validate_amounts token_cost input_capacity_amount output_capacity_amount
                input_token_amount output_token_amount

/-! ### Concrete example transactions -/

/-- A token amount `t` with `t * 3 = 2 ^ 128 + 2`, so that the wrapping
128-bit product `t * 3` equals 2 although the exact product does not. -/
def big_token_amount : Nat := 113427455640312821154458202477256070486

/-- A purchase that the contract accepts although the exact (unwrapped)
exchange equation fails: the sale cell releases `big_token_amount` tokens for
only 2 shannons of added capacity at cost 3, because the 128-bit product
wraps around. -/
def overflow_purchase_tx : Tx :=
  ⟨List.replicate 32 9 ++ [3, 0, 0, 0, 0, 0, 0, 0], [],
   [⟨100, [1], some [2], nat_to_le_bytes 16 big_token_amount⟩],
   [⟨102, [1], some [2], nat_to_le_bytes 16 0⟩]⟩

/-- An ordinary valid purchase: 1 token leaves the sale cell, 100 shannons of
capacity are added, at cost 100. -/
def buy_tx : Tx :=
  ⟨List.replicate 32 9 ++ [100, 0, 0, 0, 0, 0, 0, 0], [],
   [⟨1000, [1], some [2], nat_to_le_bytes 16 100⟩],
   [⟨1100, [1], some [2], nat_to_le_bytes 16 99⟩]⟩

/-- An owner-mode transaction whose args carry a zero cost field. -/
def owner_zero_cost_tx : Tx :=
  ⟨List.replicate 32 5 ++ List.replicate 8 0, [List.replicate 32 5], [], []⟩

/-- A structurally valid non-owner transaction whose args carry a zero cost
field. -/
def structured_zero_cost_tx : Tx :=
  ⟨List.replicate 32 5 ++ List.replicate 8 0, [],
   [⟨100, [1], some [2], nat_to_le_bytes 16 5⟩],
   [⟨100, [1], some [2], nat_to_le_bytes 16 5⟩]⟩

/-- A non-owner transaction whose own-lock-script input group is empty. -/
def empty_group_tx : Tx := ⟨List.replicate 40 1, [], [], []⟩

/-- A non-owner transaction with two cells in the own-lock-script input
group. -/
def two_sale_inputs_tx : Tx :=
  ⟨List.replicate 40 1, [], [⟨1, [1], some [2], []⟩, ⟨1, [1], some [2], []⟩], []⟩

/-! ### Helper lemmas -/

/-- The input-structure check only fails with `IndexOutOfBound` (empty group)
or `InvalidStructure`. -/
lemma validate_token_sale_inputs_error {g : List Cell} {e : Error}
    (h : validate_token_sale_inputs g = .error e) :
    e = .IndexOutOfBound ∨ e = .InvalidStructure := by
  rcases g with _ | ⟨c, _ | ⟨d, rest⟩⟩
  · simp [validate_token_sale_inputs] at h; simp [h]
  · cases ht : c.typ with
    | none => simp [validate_token_sale_inputs, ht] at h; simp [h]
    | some t => simp [validate_token_sale_inputs, ht] at h
  · simp [validate_token_sale_inputs] at h; simp [h]

/-- The output-structure check only fails with `InvalidStructure`. -/
lemma validate_token_sale_outputs_error {l t : List Nat} {o : List Cell} {e : Error}
    (h : validate_token_sale_outputs l t o = .error e) : e = .InvalidStructure := by
  unfold validate_token_sale_outputs at h
  split_ifs at h
  all_goals simp_all

/-- The cost decoder only fails with `InvalidCost`. -/
lemma determine_token_cost_error {a : List Nat} {e : Error}
    (h : determine_token_cost a = .error e) : e = .InvalidCost := by
  unfold determine_token_cost at h
  split_ifs at h
  all_goals simp_all

/-- The aggregation loop only fails with `Encoding`. -/
lemma determine_amounts_loop_error {l t : List Nat} {e : Error} {cells : List Cell}
    {cap tok : Nat} (h : determine_amounts_loop l t cap tok cells = .error e) :
    e = .Encoding := by
  induction cells generalizing cap tok with
  | nil => simp [determine_amounts_loop] at h
  | cons c rest ih =>
    unfold determine_amounts_loop at h
    split_ifs at h with h1 h2
    · exact ih h
    · simp at h; simp [h]
    · exact ih h

/-- The amount validation only fails with one of its three errors. -/
lemma validate_amounts_error {tc ic oc it ot : Nat} {e : Error}
    (h : validate_amounts tc ic oc it ot = .error e) :
    e = .AmountCkbytes ∨ e = .AmountSudt ∨ e = .ExchangeRate := by
  unfold validate_amounts at h
  split_ifs at h <;> simp_all

/-! ### C8: host fault mapping -/

/-- C8.  The four recognized host fault codes map to the local status codes
1 through 4, and an unrecognized host fault code maps to no local status code
at all (the conversion panics). -/
theorem c8_sys_error_mapping :
    error_from_sys .IndexOutOfBound = some .IndexOutOfBound ∧
    error_from_sys .ItemMissing = some .ItemMissing ∧
    (∀ n : Nat, error_from_sys (.LengthNotEnough n) = some .LengthNotEnough) ∧
    error_from_sys .Encoding = some .Encoding ∧
    Error.code .IndexOutOfBound = 1 ∧
    Error.code .ItemMissing = 2 ∧
    Error.code .LengthNotEnough = 3 ∧
    Error.code .Encoding = 4 ∧
    (∀ z : Int, error_from_sys (.Unknown z) = none) :=
  ⟨rfl, rfl, fun _ => rfl, rfl, rfl, rfl, rfl, rfl, fun _ => rfl⟩

/-! ### C10: totality of the amount validation -/

/-- C10.  `validate_amounts` is total: on every input it returns `Ok` or
exactly one of `AmountCkbytes`, `AmountSudt`, `ExchangeRate`; moreover
whenever neither of the first two guards fired (the only case in which the
two subtractions are evaluated), `output > input` holds on capacities and
`input > output` on tokens, so neither unsigned subtraction underflows. -/
theorem c10_validate_amounts_total
    (token_cost input_capacity_amount output_capacity_amount : Nat)
    (input_token_amount output_token_amount : Nat) :
    (validate_amounts token_cost input_capacity_amount output_capacity_amount
        input_token_amount output_token_amount = .ok () ∨
      validate_amounts token_cost input_capacity_amount output_capacity_amount
        input_token_amount output_token_amount = .error .AmountCkbytes ∨
      validate_amounts token_cost input_capacity_amount output_capacity_amount
        input_token_amount output_token_amount = .error .AmountSudt ∨
      validate_amounts token_cost input_capacity_amount output_capacity_amount
        input_token_amount output_token_amount = .error .ExchangeRate) ∧
    (validate_amounts token_cost input_capacity_amount output_capacity_amount
        input_token_amount output_token_amount ≠ .error .AmountCkbytes →
      validate_amounts token_cost input_capacity_amount output_capacity_amount
        input_token_amount output_token_amount ≠ .error .AmountSudt →
      input_capacity_amount < output_capacity_amount ∧
        output_token_amount < input_token_amount) := by
  unfold validate_amounts
  split_ifs with h1 h2 h3 <;>
    refine ⟨by simp, fun ha hs => ?_⟩
  · exact absurd rfl ha
  · exact absurd rfl hs
  · exact ⟨by omega, by omega⟩
  · exact ⟨by omega, by omega⟩

/-- Witness for C10 at a concrete input. -/
theorem c10_witness :
    validate_amounts 1 0 5 5 0 = .ok () ∧ ((0 : Nat) < 5 ∧ (0 : Nat) < 5) :=
  ⟨rfl, (c10_validate_amounts_total 1 0 5 5 0).2 (by decide) (by decide)⟩

/-! ### C2: owner mode accepts unconditionally -/

/-- C2.  If the script args pass the length check and some cell of the full
input set has a lock hash equal to the first 32 bytes of the args, the
validator accepts immediately, whatever the transaction's cells, amounts and
cost field are. -/
theorem c2_owner_mode_accepts (tx : Tx) (hlen : ARGS_LEN ≤ tx.args.length)
    (hmatch : ∃ lock_hash ∈ tx.inputLockHashes, tx.args.take 32 = lock_hash) :
    main tx = .ok () := by
  obtain ⟨lh, hmem, hh⟩ := hmatch
  have hown : check_owner_mode tx = true := by
    unfold check_owner_mode
    rw [List.any_eq_true]
    exact ⟨lh, hmem, by simp [hh]⟩
  unfold main
  rw [if_neg (Nat.not_lt.mpr hlen), if_pos hown]

/-- Witness for C2: an owner-mode transaction with no cells at all. -/
theorem c2_witness :
    main ⟨List.replicate 40 7, [List.replicate 32 7], [], []⟩ = .ok () :=
  c2_owner_mode_accepts _ (by decide) ⟨List.replicate 32 7, by decide, by decide⟩

/-! ### C4: argument length threshold -/

/-- C4 (amended).  The argument length check requires at least `ARGS_LEN = 40`
bytes: any shorter args fail with `ArgsLen` before any other phase runs. -/
theorem c4_args_len (tx : Tx) (h : tx.args.length < ARGS_LEN) :
    main tx = .error .ArgsLen := by
  simp [main, if_pos h]

/-- Witness for C4 at a concrete 39-byte input. -/
theorem c4_witness : main ⟨List.replicate 39 0, [], [], []⟩ = .error .ArgsLen :=
  c4_args_len _ (by decide)

/-- Counterexample to C4 as stated: a transaction whose script args are 40
bytes long — shorter than the claimed 44-byte minimum — passes the length
check, and the validator does not return `ArgsLen` (here it accepts in owner
mode). -/
theorem c4_counterexample :
    (Tx.mk (List.replicate 40 0) [List.replicate 32 0] [] []).args.length = 40 ∧
    (Tx.mk (List.replicate 40 0) [List.replicate 32 0] [] []).args.length < 44 ∧
    main (Tx.mk (List.replicate 40 0) [List.replicate 32 0] [] []) ≠ .error .ArgsLen := by
  refine ⟨by decide, by decide, fun h => ?_⟩
  rw [show main (Tx.mk (List.replicate 40 0) [List.replicate 32 0] [] []) = .ok () from rfl] at h
  exact Except.noConfusion h

/-- The aggregator only fails with `Encoding` (wrapper form). -/
lemma determine_token_sale_cell_amounts_error {l t : List Nat} {cells : List Cell}
    {e : Error} (h : determine_token_sale_cell_amounts l t cells = .error e) :
    e = .Encoding := by
  unfold determine_token_sale_cell_amounts at h
  exact determine_amounts_loop_error h

/-! ### C9: the length check passes from 40 bytes on -/

/-- C9.  The validator returns `ArgsLen` exactly when the script args are
shorter than `ARGS_LEN = 40` bytes; args of length 40 through 43 (and longer)
pass the check and validation proceeds to the later phases, none of which can
produce `ArgsLen`. -/
theorem c9_args_len_iff (tx : Tx) :
    main tx = .error .ArgsLen ↔ tx.args.length < ARGS_LEN := by
  constructor
  · intro h
    by_contra hlen
    unfold main at h
    rw [if_neg hlen] at h
    by_cases hown : check_owner_mode tx
    · rw [if_pos hown] at h; exact Except.noConfusion h
    · rw [if_neg hown] at h
      rcases hvi : validate_token_sale_inputs tx.groupInputs with e | ⟨lockb, typeb⟩
      · rw [hvi] at h
        simp at h
        subst h
        rcases validate_token_sale_inputs_error hvi with h' | h' <;> simp at h'
      · rw [hvi] at h
        simp only [] at h
        rcases hvo : validate_token_sale_outputs lockb typeb tx.outputs with e | u
        · rw [hvo] at h
          simp at h
          subst h
          have := validate_token_sale_outputs_error hvo
          simp at this
        · rw [hvo] at h
          simp only [] at h
          rcases hdc : determine_token_cost tx.args with e | cost
          · rw [hdc] at h
            simp at h
            subst h
            have := determine_token_cost_error hdc
            simp at this
          · rw [hdc] at h
            simp only [] at h
            rcases hai : determine_token_sale_cell_amounts lockb typeb tx.groupInputs with
              e | ⟨icap, itok⟩
            · rw [hai] at h
              simp at h
              subst h
              have := determine_token_sale_cell_amounts_error hai
              simp at this
            · rw [hai] at h
              simp only [] at h
              rcases hao : determine_token_sale_cell_amounts lockb typeb tx.outputs with
                e | ⟨ocap, otok⟩
              · rw [hao] at h
                simp at h
                subst h
                have := determine_token_sale_cell_amounts_error hao
                simp at this
              · rw [hao] at h
                simp only [] at h
                rcases validate_amounts_error h with h' | h' | h' <;> simp at h'
  · intro h
    simp [main, if_pos h]

/-- Witness for C9 at a concrete 3-byte input. -/
theorem c9_witness : main ⟨[1, 2, 3], [], [], []⟩ = .error .ArgsLen :=
  (c9_args_len_iff ⟨[1, 2, 3], [], [], []⟩).mpr (by decide)

/-! ### C6: the aggregator -/

/-- When every matching cell carries 16 bytes of data, the scanning loop adds
each matching cell's capacity and decoded token amount to the accumulators,
with the running totals wrapped in the `u64` / `u128` domains. -/
lemma determine_amounts_loop_ok (l t : List Nat) :
    ∀ (cells : List Cell) (cap tok : Nat), cap < 2 ^ 64 → tok < 2 ^ 128 →
    (∀ c ∈ cells, script_match l t c = true → c.data.length = 16) →
    determine_amounts_loop l t cap tok cells =
      .ok ((cap + ((cells.filter (script_match l t)).map Cell.capacity).sum) % 2 ^ 64,
           (tok + ((cells.filter (script_match l t)).map
              (fun c => le_bytes_to_nat c.data)).sum) % 2 ^ 128) := by
  intro cells
  induction cells with
  | nil =>
    intro cap tok hcap htok _
    simp only [determine_amounts_loop, List.filter_nil, List.map_nil, List.sum_nil,
      Nat.add_zero]
    rw [Nat.mod_eq_of_lt hcap, Nat.mod_eq_of_lt htok]
  | cons c rest ih =>
    intro cap tok hcap htok hall
    by_cases hm : script_match l t c
    · have hd : c.data.length = 16 := hall c (List.mem_cons_self c rest) hm
      simp only [determine_amounts_loop]
      rw [if_pos hm, if_pos hd]
      rw [ih _ _ (Nat.mod_lt _ (by norm_num)) (Nat.mod_lt _ (by norm_num))
        (fun x hx => hall x (List.mem_cons_of_mem _ hx))]
      rw [List.filter_cons_of_pos hm]
      simp only [List.map_cons, List.sum_cons, Except.ok.injEq, Prod.mk.injEq]
      constructor
      · rw [Nat.mod_add_mod, Nat.add_assoc]
      · rw [Nat.mod_add_mod, Nat.add_assoc]
    · simp only [determine_amounts_loop]
      rw [if_neg hm]
      rw [ih _ _ hcap htok (fun x hx => hall x (List.mem_cons_of_mem _ hx))]
      rw [List.filter_cons_of_neg hm]

/-- If some matching cell's data payload is not exactly 16 bytes, the scan
fails with `Encoding`, whatever the accumulators hold. -/
lemma determine_amounts_loop_bad (l t : List Nat) :
    ∀ (cells : List Cell) (cap tok : Nat),
    (∃ c ∈ cells, script_match l t c = true ∧ c.data.length ≠ 16) →
    determine_amounts_loop l t cap tok cells = .error .Encoding := by
  intro cells
  induction cells with
  | nil =>
    rintro cap tok ⟨x, hx, -⟩
    simp at hx
  | cons c rest ih =>
    rintro cap tok ⟨x, hx, hm, hd⟩
    by_cases hmc : script_match l t c
    · by_cases hdc : c.data.length = 16
      · simp only [determine_amounts_loop]
        rw [if_pos hmc, if_pos hdc]
        apply ih
        rcases List.mem_cons.mp hx with rfl | hx'
        · exact absurd hdc hd
        · exact ⟨x, hx', hm, hd⟩
      · simp only [determine_amounts_loop]
        rw [if_pos hmc, if_neg hdc]
    · simp only [determine_amounts_loop]
      rw [if_neg hmc]
      apply ih
      rcases List.mem_cons.mp hx with rfl | hx'
      · exact absurd hm hmc
      · exact ⟨x, hx', hm, hd⟩

/-- C6.  For any match key and cell list the aggregator scans every cell; if
every cell matching the key carries exactly 16 bytes of data it returns the
totals — the sum of the matching cells' capacities and of their little-endian
decoded data, in the `u64` / `u128` domains — and if some matching cell's data
payload is not 16 bytes it fails with `Encoding`.  Cells that do not match
contribute nothing and their data is unconstrained. -/
theorem c6_aggregator_spec (lock_script_bytes type_script_bytes : List Nat)
    (cells : List Cell) :
    ((∀ c ∈ cells, script_match lock_script_bytes type_script_bytes c = true →
        c.data.length = 16) →
      determine_token_sale_cell_amounts lock_script_bytes type_script_bytes cells =
        .ok (((cells.filter (script_match lock_script_bytes type_script_bytes)).map
                Cell.capacity).sum % 2 ^ 64,
             ((cells.filter (script_match lock_script_bytes type_script_bytes)).map
                (fun c => le_bytes_to_nat c.data)).sum % 2 ^ 128)) ∧
    ((∃ c ∈ cells, script_match lock_script_bytes type_script_bytes c = true ∧
        c.data.length ≠ 16) →
      determine_token_sale_cell_amounts lock_script_bytes type_script_bytes cells =
        .error .Encoding) := by
  constructor
  · intro hall
    unfold determine_token_sale_cell_amounts
    rw [determine_amounts_loop_ok lock_script_bytes type_script_bytes cells 0 0
      (by norm_num) (by norm_num) hall]
    simp
  · intro hex
    unfold determine_token_sale_cell_amounts
    exact determine_amounts_loop_bad lock_script_bytes type_script_bytes cells 0 0 hex

/-- Witness for C6: one matching cell (16-byte data) and one non-matching cell
with 3-byte data, which places no constraint on the result. -/
theorem c6_witness :
    determine_token_sale_cell_amounts [1] [2]
      [⟨70, [1], some [2], nat_to_le_bytes 16 9⟩, ⟨5, [3], none, [1, 2, 3]⟩] =
      .ok (70, 9) := by
  have h := (c6_aggregator_spec [1] [2]
    [⟨70, [1], some [2], nat_to_le_bytes 16 9⟩, ⟨5, [3], none, [1, 2, 3]⟩]).1 (by decide)
  rw [h]
  rfl

/-! ### C5: structural validation failures -/

/-- A successful input-structure check means the group is a single cell
carrying a type script, and returns its (lock, type) byte pair. -/
lemma validate_token_sale_inputs_ok {g : List Cell} {lockb typeb : List Nat}
    (h : validate_token_sale_inputs g = .ok (lockb, typeb)) :
    ∃ c, g = [c] ∧ c.typ = some typeb ∧ c.lock = lockb := by
  rcases g with _ | ⟨c, _ | ⟨d, rest⟩⟩
  · simp [validate_token_sale_inputs] at h
  · cases ht : c.typ with
    | none => simp [validate_token_sale_inputs, ht] at h
    | some t =>
      simp [validate_token_sale_inputs, ht] at h
      exact ⟨c, rfl, by rw [ht, h.2], h.1⟩
  · simp [validate_token_sale_inputs] at h

/-- The input-structure check on a one-cell group with a type script. -/
lemma validate_token_sale_inputs_single {c : Cell} {t : List Nat}
    (ht : c.typ = some t) :
    validate_token_sale_inputs [c] = .ok (c.lock, t) := by
  simp [validate_token_sale_inputs, ht]

/-- C5 (amended).  For a non-owner transaction passing the length check: a
group with two or more cells, a single group cell without a type script, or an
output match count different from 1 are each rejected with
`InvalidStructure`; an empty group, however, is rejected with the propagated
host fault `IndexOutOfBound`, not with `InvalidStructure`. -/
theorem c5_invalid_structure (tx : Tx) (hlen : ARGS_LEN ≤ tx.args.length)
    (hown : check_owner_mode tx = false) :
    (2 ≤ tx.groupInputs.length → main tx = .error .InvalidStructure) ∧
    (∀ c, tx.groupInputs = [c] → c.typ = none →
      main tx = .error .InvalidStructure) ∧
    (∀ c t, tx.groupInputs = [c] → c.typ = some t →
      tx.outputs.countP (script_match c.lock t) ≠ 1 →
      main tx = .error .InvalidStructure) ∧
    (tx.groupInputs = [] → main tx = .error .IndexOutOfBound) := by
  refine ⟨fun h2 => ?_, fun c hg htyp => ?_, fun c t hg htyp hcnt => ?_, fun hg => ?_⟩
  · unfold main
    rw [if_neg (Nat.not_lt.mpr hlen), if_neg (by simp [hown])]
    rw [show validate_token_sale_inputs tx.groupInputs = .error .InvalidStructure from by
      unfold validate_token_sale_inputs; rw [if_pos h2]]
  · unfold main
    rw [if_neg (Nat.not_lt.mpr hlen), if_neg (by simp [hown])]
    rw [show validate_token_sale_inputs tx.groupInputs = .error .InvalidStructure from by
      rw [hg]; simp [validate_token_sale_inputs, htyp]]
  · unfold main
    rw [if_neg (Nat.not_lt.mpr hlen), if_neg (by simp [hown])]
    rw [hg, validate_token_sale_inputs_single htyp]
    simp only []
    rw [show validate_token_sale_outputs c.lock t tx.outputs = .error .InvalidStructure from by
      unfold validate_token_sale_outputs; rw [if_pos hcnt]]
  · unfold main
    rw [if_neg (Nat.not_lt.mpr hlen), if_neg (by simp [hown])]
    rw [show validate_token_sale_inputs tx.groupInputs = .error .IndexOutOfBound from by
      rw [hg]; simp [validate_token_sale_inputs]]

/-- Witness for C5: two sale cells in the input group are rejected with
`InvalidStructure`. -/
theorem c5_witness : main two_sale_inputs_tx = .error .InvalidStructure :=
  (c5_invalid_structure two_sale_inputs_tx (by decide) (by decide)).1 (by decide)

/-- Counterexample to C5 as stated: a non-owner transaction with an *empty*
own-lock-script input group — so the group does not contain exactly one cell —
is rejected with `IndexOutOfBound`, not with `InvalidStructure`. -/
theorem c5_counterexample :
    ARGS_LEN ≤ empty_group_tx.args.length ∧
    check_owner_mode empty_group_tx = false ∧
    empty_group_tx.groupInputs.length ≠ 1 ∧
    main empty_group_tx = .error .IndexOutOfBound ∧
    Error.IndexOutOfBound ≠ Error.InvalidStructure := by decide

/-! ### C3: the zero-cost rejection -/

/-- C3 (amended).  For a non-owner invocation that passes the length check and
the structural validation, a decoded `unitCost` of 0 is rejected with
`InvalidCost`, independent of the cells' amounts and data. -/
theorem c3_invalid_cost (tx : Tx) (c : Cell) (t : List Nat)
    (hlen : ARGS_LEN ≤ tx.args.length) (hown : check_owner_mode tx = false)
    (hg : tx.groupInputs = [c]) (htyp : c.typ = some t)
    (hcnt : tx.outputs.countP (script_match c.lock t) = 1)
    (hcost : le_bytes_to_nat ((tx.args.drop 32).take 8) = 0) :
    main tx = .error .InvalidCost := by
  unfold main
  rw [if_neg (Nat.not_lt.mpr hlen), if_neg (by simp [hown])]
  rw [hg, validate_token_sale_inputs_single htyp]
  simp only []
  rw [show validate_token_sale_outputs c.lock t tx.outputs = .ok () from by
    unfold validate_token_sale_outputs; rw [if_neg (by simp [hcnt])]]
  simp only []
  rw [show determine_token_cost tx.args = .error .InvalidCost from by
    unfold determine_token_cost; rw [if_pos (by omega)]]

/-- Witness for C3: a structurally valid non-owner transaction with a zero
cost field is rejected with `InvalidCost`. -/
theorem c3_witness : main structured_zero_cost_tx = .error .InvalidCost :=
  c3_invalid_cost structured_zero_cost_tx ⟨100, [1], some [2], nat_to_le_bytes 16 5⟩ [2]
    (by decide) (by decide) rfl rfl (by decide) (by decide)

/-- Counterexample to C3 as stated: an invocation whose decoded `unitCost` is
0 but which contains an owner-mode input is accepted — the owner-mode check
runs before the cost is ever decoded, so the rejection is not independent of
the other fields. -/
theorem c3_counterexample :
    le_bytes_to_nat ((owner_zero_cost_tx.args.drop 32).take 8) = 0 ∧
    main owner_zero_cost_tx = .ok () ∧
    (Except.ok () : Except Error Unit) ≠ .error .InvalidCost := by decide

/-! ### C7: the exchange-rate checker -/

/-- C7 (amended).  `validate_amounts` fails fast in a fixed order —
`AmountCkbytes` when the capacity did not strictly increase, then
`AmountSudt` when the tokens did not strictly decrease, then `ExchangeRate`
unless the capacity difference equals the token difference times the unit
cost — the product being computed by the wrapping 128-bit multiplication, so
the comparison is modulo `2 ^ 128` and agrees with the exact product only
when that product is below `2 ^ 128`. -/
theorem c7_validate_amounts_spec
    (token_cost input_capacity_amount output_capacity_amount : Nat)
    (input_token_amount output_token_amount : Nat) :
    (output_capacity_amount ≤ input_capacity_amount →
      validate_amounts token_cost input_capacity_amount output_capacity_amount
        input_token_amount output_token_amount = .error .AmountCkbytes) ∧
    (input_capacity_amount < output_capacity_amount →
      input_token_amount ≤ output_token_amount →
      validate_amounts token_cost input_capacity_amount output_capacity_amount
        input_token_amount output_token_amount = .error .AmountSudt) ∧
    (input_capacity_amount < output_capacity_amount →
      output_token_amount < input_token_amount →
      output_capacity_amount - input_capacity_amount ≠
        ((input_token_amount - output_token_amount) * token_cost) % 2 ^ 128 →
      validate_amounts token_cost input_capacity_amount output_capacity_amount
        input_token_amount output_token_amount = .error .ExchangeRate) ∧
    (input_capacity_amount < output_capacity_amount →
      output_token_amount < input_token_amount →
      output_capacity_amount - input_capacity_amount =
        ((input_token_amount - output_token_amount) * token_cost) % 2 ^ 128 →
      validate_amounts token_cost input_capacity_amount output_capacity_amount
        input_token_amount output_token_amount = .ok ()) := by
  refine ⟨fun h1 => ?_, fun h1 h2 => ?_, fun h1 h2 h3 => ?_, fun h1 h2 h3 => ?_⟩
  · unfold validate_amounts
    rw [if_pos h1]
  · unfold validate_amounts
    rw [if_neg (not_le.mpr h1), if_pos h2]
  · unfold validate_amounts
    rw [if_neg (not_le.mpr h1), if_neg (not_le.mpr h2), if_pos h3]
  · unfold validate_amounts
    rw [if_neg (not_le.mpr h1), if_neg (not_le.mpr h2), if_neg (not_ne_iff.mpr h3)]

/-- Witness for C7: a balanced purchase (100 shannons for 1 token at cost
100) is accepted. -/
theorem c7_witness : validate_amounts 100 1000 1100 100 99 = .ok () :=
  (c7_validate_amounts_spec 100 1000 1100 100 99).2.2.2 (by decide) (by decide)
    (by decide)

/-- Counterexample to C7 as stated: at cost 3 with a token difference `t`
satisfying `t * 3 = 2 ^ 128 + 2`, a capacity difference of 2 is accepted,
although the exact product `t * 3` is not 2 — the multiplication overflowed
the 128-bit domain, so the check is not free of precision loss. -/
theorem c7_counterexample :
    validate_amounts 3 0 2 big_token_amount 0 = .ok () ∧
    (2 - 0 : Nat) ≠ (big_token_amount - 0) * 3 := by
  constructor
  · decide
  · decide

/-! ### C1: the acceptance characterization -/

/-- C1 (amended).  A non-owner transaction whose args pass the length check is
accepted exactly when: the own-lock-script input group is a single cell
carrying a type script, exactly one output cell's (lock, type) bytes equal
that cell's, both aggregation passes succeed, and the totals satisfy
`outputCapacity > inputCapacity`, `outputTokens < inputTokens` and
`outputCapacity − inputCapacity = ((inputTokens − outputTokens) × unitCost)
mod 2 ^ 128` — the equation holding for the wrapping 128-bit product, which
agrees with the exact product only below `2 ^ 128`. -/
theorem c1_accept_iff (tx : Tx) (hlen : ARGS_LEN ≤ tx.args.length)
    (hown : check_owner_mode tx = false) :
    main tx = .ok () ↔
      ∃ c t input_capacity_amount input_token_amount
        output_capacity_amount output_token_amount,
        tx.groupInputs = [c] ∧
        c.typ = some t ∧
        tx.outputs.countP (script_match c.lock t) = 1 ∧
        determine_token_sale_cell_amounts c.lock t tx.groupInputs =
          .ok (input_capacity_amount, input_token_amount) ∧
        determine_token_sale_cell_amounts c.lock t tx.outputs =
          .ok (output_capacity_amount, output_token_amount) ∧
        input_capacity_amount < output_capacity_amount ∧
        output_token_amount < input_token_amount ∧
        output_capacity_amount - input_capacity_amount =
          ((input_token_amount - output_token_amount) *
            le_bytes_to_nat ((tx.args.drop 32).take 8)) % 2 ^ 128 := by
  constructor
  · intro h
    unfold main at h
    rw [if_neg (Nat.not_lt.mpr hlen), if_neg (by simp [hown])] at h
    rcases hvi : validate_token_sale_inputs tx.groupInputs with e | ⟨lockb, typeb⟩
    · rw [hvi] at h; simp at h
    · rw [hvi] at h
      simp only [] at h
      obtain ⟨c, hg, htyp, hlock⟩ := validate_token_sale_inputs_ok hvi
      subst hlock
      rcases hvo : validate_token_sale_outputs c.lock typeb tx.outputs with e | u
      · rw [hvo] at h; simp at h
      · rw [hvo] at h
        simp only [] at h
        have hcnt : tx.outputs.countP (script_match c.lock typeb) = 1 := by
          by_contra hne
          unfold validate_token_sale_outputs at hvo
          rw [if_pos hne] at hvo
          exact Except.noConfusion hvo
        rcases hdc : determine_token_cost tx.args with e | cost
        · rw [hdc] at h; simp at h
        · rw [hdc] at h
          simp only [] at h
          have hcost : cost = le_bytes_to_nat ((tx.args.drop 32).take 8) := by
            unfold determine_token_cost at hdc
            split_ifs at hdc
            simp at hdc
            exact hdc.symm
          rcases hai : determine_token_sale_cell_amounts c.lock typeb tx.groupInputs with
            e | ⟨icap, itok⟩
          · rw [hai] at h; simp at h
          · rw [hai] at h
            simp only [] at h
            rcases hao : determine_token_sale_cell_amounts c.lock typeb tx.outputs with
              e | ⟨ocap, otok⟩
            · rw [hao] at h; simp at h
            · rw [hao] at h
              simp only [] at h
              unfold validate_amounts at h
              split_ifs at h with h1 h2 h3
              exact ⟨c, typeb, icap, itok, ocap, otok, hg, htyp, hcnt, hai, hao,
                by omega, by omega, by rw [← hcost]; exact not_not.mp h3⟩
  · rintro ⟨c, t, icap, itok, ocap, otok, hg, htyp, hcnt, hai, hao, h1, h2, h3⟩
    unfold main
    rw [if_neg (Nat.not_lt.mpr hlen), if_neg (by simp [hown])]
    rw [hg, validate_token_sale_inputs_single htyp]
    simp only []
    rw [show validate_token_sale_outputs c.lock t tx.outputs = .ok () from by
      unfold validate_token_sale_outputs; rw [if_neg (by simp [hcnt])]]
    simp only []
    by_cases hzero : le_bytes_to_nat ((tx.args.drop 32).take 8) < 1
    · exfalso
      have h0 : le_bytes_to_nat ((tx.args.drop 32).take 8) = 0 := by omega
      rw [h0, Nat.mul_zero, Nat.zero_mod] at h3
      omega
    · rw [show determine_token_cost tx.args =
          .ok (le_bytes_to_nat ((tx.args.drop 32).take 8)) from by
        unfold determine_token_cost; rw [if_neg hzero]]
      simp only []
      rw [hg] at hai
      rw [hai]
      simp only []
      rw [hao]
      simp only []
      unfold validate_amounts
      rw [if_neg (not_le.mpr h1), if_neg (not_le.mpr h2), if_neg (not_ne_iff.mpr h3)]

/-- Witness for C1: a concrete valid purchase (1 token for 100 shannons at
cost 100) is accepted. -/
theorem c1_witness : main buy_tx = .ok () :=
  (c1_accept_iff buy_tx (by decide) (by decide)).mpr
    ⟨⟨1000, [1], some [2], nat_to_le_bytes 16 100⟩, [2], 1000, 100, 1100, 99,
      rfl, rfl, by decide, by decide, by decide, by decide, by decide, by decide⟩

/-- Counterexample to C1 as stated: with cost 3 and a sale cell holding
`big_token_amount` tokens (`big_token_amount * 3 = 2 ^ 128 + 2`), the
validator accepts a purchase adding only 2 shannons of capacity although the
exact equation `outputCapacity − inputCapacity = (inputTokens − outputTokens)
× unitCost` fails — the 128-bit product wrapped. -/
theorem c1_counterexample :
    main overflow_purchase_tx = .ok () ∧
    check_owner_mode overflow_purchase_tx = false ∧
    ARGS_LEN ≤ overflow_purchase_tx.args.length ∧
    determine_token_sale_cell_amounts [1] [2] overflow_purchase_tx.groupInputs =
      .ok (100, big_token_amount) ∧
    determine_token_sale_cell_amounts [1] [2] overflow_purchase_tx.outputs =
      .ok (102, 0) ∧
    le_bytes_to_nat ((overflow_purchase_tx.args.drop 32).take 8) = 3 ∧
    (102 - 100 : Nat) ≠ (big_token_amount - 0) * 3 := by
  refine ⟨by decide, by decide, by decide, by decide, by decide, by decide, by decide⟩

end TokenSale
